import Mathlib

/-!
Verification development for the Lexsy legal-document filling engine.

The definitions below are a shallow embedding of the Python sources:

- `backend/app.py` (the `edit_field`, `fill_field_directly` and
  `complete_document` endpoints, modelled as state transitions),
- `backup_20251101_114452/backend/services/ai_service.py`
  (`_validate_placeholder_value` and the next-unfilled scan of
  `process_message`),
- `backup_v1/backend/services/placeholder_detector.py`
  (`_identify_placeholder_type` and `_smart_deduplicate`),
- `backup_v1/backend/services/document_processor.py`
  (the table-cell path of `generate_preview`).

Modelling conventions:

- Python strings are Lean `String`s; all character work happens on `String.data`
  so that every definition evaluates by kernel reduction.
- Python `float` values are modelled exactly by the `Dec` type (an integer
  mantissa together with a power-of-ten denominator).  Every numeric literal
  that the claims exercise is exactly representable in binary64 and its
  formatting does not depend on rounding, so the exact-decimal model agrees
  with CPython on all inputs considered here.  The model of `float(str)`
  covers plain decimal numerals (optional sign, digits, optional fraction);
  exponent forms, `inf`/`nan` and underscore separators are outside the model.
- Python dicts (`filled_values`, keyed string maps) are association lists with
  insertion-order upsert; `len(dict)` is the list length, which agrees with
  CPython whenever the keys are pairwise distinct (all states built by the
  modelled operations have this property).
- `ph.get('id', ph['key'])` is modelled as `ph.id`: the detector assigns an
  `id` to every placeholder it produces, so the fallback never fires for the
  session states this development considers.
-/

set_option maxHeartbeats 1000000
set_option maxRecDepth 10000

namespace Lexsy

/-! ## Python-style string primitives (over `String.data`) -/

/-- Python `needle in hay` substring test. -/
def pyIn (needle hay : String) : Bool :=
  decide (needle.data <:+: hay.data)

/-- Python whitespace (the characters matched by `str.strip` and `str.split`). -/
def wsChar (c : Char) : Bool :=
  c == ' ' || c == '\t' || c == '\n' || c == '\r' || c == '\x0b' || c == '\x0c'

/-- Python `str.strip()`. -/
def pyStrip (s : String) : String :=
  ⟨((s.data.dropWhile wsChar).reverse.dropWhile wsChar).reverse⟩

/-- Python `str.lower()` (ASCII behaviour, which is all the engine relies on). -/
def pyLower (s : String) : String :=
  ⟨s.data.map Char.toLower⟩

/-- Python `str.upper()` (ASCII behaviour). -/
def pyUpper (s : String) : String :=
  ⟨s.data.map Char.toUpper⟩

/-- Helper for `pyTitle`: walk the characters remembering whether the previous
character was alphabetic. -/
def titleGo : Bool → List Char → List Char
  | _, [] => []
  | prevAlpha, c :: cs =>
    if c.isAlpha then
      (if prevAlpha then c.toLower else c.toUpper) :: titleGo true cs
    else
      c :: titleGo false cs

/-- Python `str.title()` (ASCII behaviour: first letter of every alphabetic
run uppercased, the rest lowercased). -/
def pyTitle (s : String) : String :=
  ⟨titleGo false s.data⟩

/-- Helper for `pySplitWS`: accumulate the current word (reversed). -/
def splitWSGo : List Char → List Char → List (List Char)
  | acc, [] => if acc.isEmpty then [] else [acc.reverse]
  | acc, c :: cs =>
    if wsChar c then
      if acc.isEmpty then splitWSGo [] cs else acc.reverse :: splitWSGo [] cs
    else
      splitWSGo (c :: acc) cs

/-- Python `str.split()` with no argument: split on whitespace runs, dropping
empty fields. -/
def pySplitWS (s : String) : List (List Char) :=
  splitWSGo [] s.data

/-- Intersperse a single space between words. -/
def joinSpaces : List (List Char) → List Char
  | [] => []
  | [w] => w
  | w :: ws => w ++ ' ' :: joinSpaces ws

/-- Python `' '.join(value.split())`: whitespace normalization. -/
def normWS (s : String) : String :=
  ⟨joinSpaces (pySplitWS s)⟩

/-- Remove every occurrence of the characters selected by `sel`
(models `re.sub` over a character class, and `str.replace(c, '')`). -/
def dropChars (sel : Char → Bool) (s : String) : String :=
  ⟨s.data.filter (fun c => !(sel c))⟩

/-- Fuel-driven replace-all worker.  The fuel is the length of the subject, so
it never runs out when the pattern is nonempty. -/
def replaceAllGo (pat rep : List Char) : Nat → List Char → List Char
  | 0, l => l
  | _ + 1, [] => []
  | fuel + 1, c :: cs =>
    if pat.isPrefixOf (c :: cs) then
      rep ++ replaceAllGo pat rep fuel ((c :: cs).drop pat.length)
    else
      c :: replaceAllGo pat rep fuel cs

/-- Python `s.replace(old, new)` (all occurrences, left to right, no rescan of
the inserted text).  The `old = ""` case never arises for the placeholder
literals this engine substitutes. -/
def pyReplaceAll (s old new : String) : String :=
  if old.data.isEmpty then s
  else ⟨replaceAllGo old.data new.data s.data.length s.data⟩

/-- Python `s.replace(old, new, 1)` (first occurrence only). -/
def replaceOneGo (pat rep : List Char) : List Char → List Char
  | [] => []
  | c :: cs =>
    if pat.isPrefixOf (c :: cs) then rep ++ (c :: cs).drop pat.length
    else c :: replaceOneGo pat rep cs

/-- Python `s.replace(old, new, 1)`. -/
def pyReplaceOne (s old new : String) : String :=
  ⟨replaceOneGo old.data new.data s.data⟩

/-- Python `s.startswith(p)`. -/
def pyStarts (s p : String) : Bool :=
  p.data.isPrefixOf s.data

/-! ## Decimal printing of integers (Python `str(int)` / f-string `d`) -/

/-- The decimal digit characters, least value first. -/
def digitChar : Nat → Char
  | 0 => '0' | 1 => '1' | 2 => '2' | 3 => '3' | 4 => '4'
  | 5 => '5' | 6 => '6' | 7 => '7' | 8 => '8' | _ => '9'

/-- Fuel-driven decimal digit emission; `decDigits` supplies enough fuel. -/
def decDigitsAux : Nat → Nat → List Char
  | 0, _ => []
  | fuel + 1, n =>
    if n < 10 then [digitChar n]
    else decDigitsAux fuel (n / 10) ++ [digitChar (n % 10)]

/-- Decimal digits of a natural number, most significant first. -/
def decDigits (n : Nat) : List Char :=
  decDigitsAux (n + 1) n

/-- Python `str(n)` for a natural number. -/
def natToDec (n : Nat) : String :=
  ⟨decDigits n⟩

/-- Python `str(i)` for an integer. -/
def intToDec (i : Int) : String :=
  if i < 0 then "-" ++ natToDec i.natAbs else natToDec i.natAbs

/-- Group a digit run into 3-character chunks (input is the reversed digit
list, so chunks count from the least significant digit). -/
def chunk3 : List Char → List (List Char)
  | [] => []
  | [a] => [[a]]
  | [a, b] => [[a, b]]
  | a :: b :: c :: rest => [a, b, c] :: chunk3 rest

/-- Join chunks with commas. -/
def joinCommas : List (List Char) → List Char
  | [] => []
  | [w] => w
  | w :: ws => w ++ ',' :: joinCommas ws

/-- Python `f"{n:,}"` for a natural number: thousands separators. -/
def natGroup (n : Nat) : String :=
  ⟨joinCommas (((chunk3 (decDigits n).reverse).map List.reverse).reverse)⟩

/-- Python `f"{i:,}"` for an integer. -/
def intGroup (i : Int) : String :=
  if i < 0 then "-" ++ natGroup i.natAbs else natGroup i.natAbs

/-! ## Exact-decimal model of Python floats -/

/-- Exact decimal number: `num / 10 ^ exp`.  Models the Python floats the
validator manipulates (see the header for the scope of the model). -/
structure Dec where
  num : Int
  exp : Nat
deriving DecidableEq

/-- Comparison `a ≤ b` by cross multiplication. -/
def dLe (a b : Dec) : Bool :=
  a.num * (10 : Int) ^ b.exp ≤ b.num * (10 : Int) ^ a.exp

/-- Comparison `a < b` by cross multiplication. -/
def dLt (a b : Dec) : Bool :=
  a.num * (10 : Int) ^ b.exp < b.num * (10 : Int) ^ a.exp

/-- Whole-number test (`number == int(number)` in Python). -/
def dIsInt (a : Dec) : Bool :=
  a.num % (10 : Int) ^ a.exp == 0

/-- The integer value of a whole `Dec` (Python `int(number)` on an exact
whole number). -/
def dToInt (a : Dec) : Int :=
  a.num / (10 : Int) ^ a.exp

/-- Multiplication by an integer constant (used for `percentage * 100`). -/
def dMulInt (a : Dec) (k : Int) : Dec :=
  ⟨a.num * k, a.exp⟩

/-- Worker for `dStrip`, structurally recursive on the exponent. -/
def dStripGo : Nat → Int → Dec
  | 0, n => ⟨n, 0⟩
  | e + 1, n => if n % 10 == 0 then dStripGo e (n / 10) else ⟨n, e + 1⟩

/-- Drop trailing decimal zeros (canonicalizes before printing, mirroring the
shortest-repr behaviour of Python float printing on exact decimals). -/
def dStrip (a : Dec) : Dec :=
  dStripGo a.exp a.num

/-- Left-pad a digit list with zeros to the requested width. -/
def padZeros (width : Nat) (l : List Char) : List Char :=
  List.replicate (width - l.length) '0' ++ l

/-- Python `str(x)` / `f"{x}"` for a float holding an exact decimal value:
whole numbers print with a trailing `.0`, other values print their shortest
decimal expansion. -/
def pyFloatRepr (a : Dec) : String :=
  let b := dStrip a
  let sign : String := if b.num < 0 then "-" else ""
  match b.exp with
  | 0 => sign ++ natToDec b.num.natAbs ++ ".0"
  | e + 1 =>
    let m := b.num.natAbs
    let p := (10 : Nat) ^ (e + 1)
    sign ++ natToDec (m / p) ++ "." ++ ⟨padZeros (e + 1) (decDigits (m % p))⟩

/-- Round a `Dec` to the nearest integer, ties to even (the rounding used by
Python's fixed-point float formatting). -/
def dRoundHalfEven (a : Dec) : Int :=
  let p := (10 : Int) ^ a.exp
  let f := a.num.fdiv p
  let r := a.num - f * p
  if 2 * r < p then f
  else if p < 2 * r then f + 1
  else if f % 2 == 0 then f else f + 1

/-- Python `f"{x:,.0f}"`: round to an integer (ties to even), thousands
separators. -/
def fmtComma0 (a : Dec) : String :=
  intGroup (dRoundHalfEven a)

/-- Python `f"{x:.2f}"`: two fixed decimals (ties to even). -/
def fmtFixed2 (a : Dec) : String :=
  let n := dRoundHalfEven ⟨a.num * 100, a.exp⟩
  let sign : String := if n < 0 then "-" else ""
  sign ++ natToDec (n.natAbs / 100) ++ "." ++ ⟨padZeros 2 (decDigits (n.natAbs % 100))⟩

/-- The decimal digit characters as a class (mirrors the regex class `[0-9]`
and Python `str.isdigit` for ASCII input). -/
def isDigitCh (c : Char) : Bool :=
  ['0', '1', '2', '3', '4', '5', '6', '7', '8', '9'].contains c

/-- Numeric value of a decimal digit character. -/
def digitVal (c : Char) : Nat :=
  c.toNat - 48

/-- Fold a digit run into a natural number. -/
def natOfDigits (l : List Char) : Nat :=
  l.foldl (fun acc c => acc * 10 + digitVal c) 0

/-- Model of Python `float(s)` on plain decimal numerals:
`[+|-] digits [. digits] | [+|-] . digits`.  Returns `none` exactly when
CPython raises `ValueError`, for inputs in this grammar's alphabet
(exponent forms, `inf`/`nan` and underscore separators are outside the
model, as documented in the header). -/
def parseFloat? (s : String) : Option Dec :=
  let step : Int × List Char :=
    match s.data with
    | '-' :: t => (-1, t)
    | '+' :: t => (1, t)
    | t => (1, t)
  let sgn := step.1
  let cs := step.2
  let ip := cs.takeWhile isDigitCh
  let rest := cs.dropWhile isDigitCh
  match rest with
  | [] => if ip.isEmpty then none else some ⟨sgn * natOfDigits ip, 0⟩
  | '.' :: cs2 =>
    let fp := cs2.takeWhile isDigitCh
    if (cs2.dropWhile isDigitCh).isEmpty && !(ip.isEmpty && fp.isEmpty) then
      some ⟨sgn * natOfDigits (ip ++ fp), fp.length⟩
    else none
  | _ => none

/-! ## Rounding for progress percentages (`round(x, 1)`) -/

/-- Round a rational to the nearest integer, ties to even (CPython
`round` semantics on exactly-representable values). -/
def rheQ (q : ℚ) : ℤ :=
  let f := ⌊q⌋
  if q - f < 1 / 2 then f
  else if (1 : ℚ) / 2 < q - f then f + 1
  else if f % 2 = 0 then f else f + 1

/-- Python `round(x, 1)` on the exact value. -/
def pyRound1 (q : ℚ) : ℚ :=
  (rheQ (q * 10) : ℚ) / 10

/-! ## Data model -/

/-- Physical address of a placeholder: the `(location_type, location)` pair.
Paragraph locations are integer indices; table locations are the
`f"{table}-{row}-{col}"` triples built by the detector. -/
inductive Loc where
  | para (idx : Nat)
  | table (t r c : Nat)
deriving DecidableEq

/-- The `location_type` string stored on a placeholder. -/
def locTypeStr : Loc → String
  | .para _ => "paragraph"
  | .table _ _ _ => "table"

/-- The `location` value rendered as it appears inside f-string keys
(`str(int)` for paragraphs, the dash-joined triple for table cells). -/
def locStr : Loc → String
  | .para n => natToDec n
  | .table t r c => natToDec t ++ "-" ++ natToDec r ++ "-" ++ natToDec c

/-- A detected placeholder (the dict produced by
`placeholder_detector._find_placeholders_in_text`). -/
structure Placeholder where
  id : String
  key : String
  normalizedKey : String
  name : String
  original : String
  type : String
  location : Loc
  position : Nat × Nat
  context : String
deriving DecidableEq

/-- The `filled_values` dict: an insertion-ordered string map. -/
abbrev FilledValues := List (String × String)

/-- Python `k in d`. -/
def fvContains (fv : FilledValues) (k : String) : Bool :=
  fv.any (fun e => e.1 == k)

/-- Python `d.get(k)`. -/
def fvGet? (fv : FilledValues) (k : String) : Option String :=
  (fv.find? (fun e => e.1 == k)).map Prod.snd

/-- Python `d[k] = v`: update in place if the key exists, else append
(CPython dicts preserve insertion order). -/
def fvSet (fv : FilledValues) (k v : String) : FilledValues :=
  if fvContains fv k then fv.map (fun e => if e.1 == k then (k, v) else e)
  else fv ++ [(k, v)]

/-! ## Type classification (`placeholder_detector._identify_placeholder_type`) -/

/-- The `type_indicators` table, in its Python insertion order. -/
def typeIndicators : List (String × List String) :=
  [("company", ["company", "corporation", "entity", "business", "firm", "organization", "llc", "inc", "corp"]),
   ("person", ["name", "person", "individual", "party", "signatory", "representative", "employee"]),
   ("date", ["date", "day", "month", "year", "effective", "expiration", "deadline", "due", "termination"]),
   ("amount", ["amount", "price", "fee", "cost", "payment", "sum", "total", "valuation", "cap", "$", "dollar", "usd"]),
   ("percentage", ["percentage", "percent", "rate", "discount", "interest", "commission", "%"]),
   ("address", ["address", "location", "street", "city", "state", "zip", "country", "jurisdiction"]),
   ("contact", ["email", "phone", "telephone", "fax", "contact", "mobile", "tel"]),
   ("number", ["number", "count", "quantity", "shares", "units", "#", "no."]),
   ("signature", ["signature", "signed", "authorized", "executed", "acknowledged"]),
   ("title", ["title", "position", "role", "designation", "office"])]

/-- The generic keyword-bucket loop: first type whose indicator list hits,
except that the `company` bucket is skipped (`continue`) for
state-of-incorporation names. -/
def indicatorScan (nm : String) : List (String × List String) → String
  | [] => "text"
  | (tn, inds) :: rest =>
    if inds.any (fun ind => pyIn ind nm) &&
       !(tn == "company" && pyIn "state" nm && pyIn "incorporation" nm) then tn
    else indicatorScan nm rest

/-- `_identify_placeholder_type`: compound-phrase special cases first, then
the generic indicator buckets, defaulting to `text`. -/
def identifyPlaceholderType (name : String) : String :=
  let nm := pyLower name
  if pyIn "address" nm then "address"
  else if pyIn "state of incorporation" nm then "address"
  else if pyIn "governing law" nm || pyIn "governing law jurisdiction" nm then "address"
  else if pyIn "valuation cap" nm then "amount"
  else if pyIn "discount rate" nm then "percentage"
  else if pyIn "purchase amount" nm then "amount"
  else if pyIn "date of safe" nm || pyIn "safe date" nm then "date"
  else if pyIn "investor name" nm then "person"
  else if pyIn "company name" nm then "company"
  else if (pyIn "term" nm && pyIn "month" nm) || pyIn "number of month" nm ||
          (pyIn "month" nm && (["term", "number", "count", "quantity", "duration", "period"].any (fun w => pyIn w nm))) then "number"
  else indicatorScan nm typeIndicators

/-! ## Value validation (`ai_service._validate_placeholder_value`) -/

/-- Validation outcome: the processed value, or the error message. -/
inductive VResult where
  | ok (processed : String)
  | err (msg : String)
deriving DecidableEq

/-- Characters of the regex class `[a-zA-Z0-9._%+-]` (email local part). -/
def emailLocalChar (c : Char) : Bool :=
  c.isAlpha || isDigitCh c || c == '.' || c == '_' || c == '%' || c == '+' || c == '-'

/-- Characters of the regex class `[a-zA-Z0-9.-]` (email domain). -/
def emailDomChar (c : Char) : Bool :=
  c.isAlpha || isDigitCh c || c == '.' || c == '-'

/-- Split a character list on a separator character. -/
def splitOnCh (sep : Char) : List Char → List (List Char)
  | [] => [[]]
  | c :: cs =>
    if c == sep then [] :: splitOnCh sep cs
    else match splitOnCh sep cs with
      | [] => [[c]]
      | w :: ws => (c :: w) :: ws

/-- Acceptance of `^[a-zA-Z0-9._%+-]+@[a-zA-Z0-9.-]+\.[a-zA-Z]{2,}$`.
Since neither class contains `@`, an accepted string has exactly one `@`;
since the final `[a-zA-Z]{2,}` run is anchored at the end and contains no
dot, the explicit `\.` of the regex is the last dot of the domain. -/
def isEmail (s : String) : Bool :=
  match splitOnCh '@' s.data with
  | [localPart, domain] =>
    (!localPart.isEmpty) && localPart.all emailLocalChar &&
    (match domain.reverse.dropWhile (fun c => !(c == '.')) with
     | '.' :: dRev =>
       let tld := (domain.reverse.takeWhile (fun c => !(c == '.'))).reverse
       (!dRev.isEmpty) && dRev.all emailDomChar && tld.length ≥ 2 && tld.all Char.isAlpha
     | _ => false)
  | _ => false

/-- The `is_month_number_field` predicate (checked before the date rule). -/
def isMonthNumberField (ph : Placeholder) : Bool :=
  let name := pyLower ph.name
  ph.type == "number" ||
  (pyIn "month" name && (["term", "number", "count", "quantity", "duration", "period"].any (fun w => pyIn w name))) ||
  pyIn "term month" name ||
  (pyIn "months" name && !(pyIn "date" name))

/-- Condition for the email branch. -/
def isEmailField (ph : Placeholder) : Bool :=
  ph.type == "contact" || pyIn "email" (pyLower ph.name)

/-- Condition for the date branch. -/
def isDateField (ph : Placeholder) : Bool :=
  let name := pyLower ph.name
  ph.type == "date" || (pyIn "date" name && !(pyIn "month" name))

/-- Condition for the address branch. -/
def isAddressField (ph : Placeholder) : Bool :=
  let name := pyLower ph.name
  ph.type == "address" || pyIn "state" name || pyIn "jurisdiction" name

/-- Condition for the amount branch. -/
def isAmountField (ph : Placeholder) : Bool :=
  ph.type == "amount" ||
  (["amount", "price", "valuation", "fee", "$"].any (fun x => pyIn x (pyLower ph.name)))

/-- Condition for the percentage branch. -/
def isPercentageField (ph : Placeholder) : Bool :=
  ph.type == "percentage" ||
  (["rate", "discount", "percent", "%"].any (fun x => pyIn x (pyLower ph.name)))

/-- Condition for the phone branch. -/
def isPhoneField (ph : Placeholder) : Bool :=
  pyIn "phone" (pyLower ph.name) || pyIn "telephone" (pyLower ph.name)

/-- Condition for the generic number branch. -/
def isNumberField (ph : Placeholder) : Bool :=
  let name := pyLower ph.name
  ph.type == "number" || pyIn "number" name || pyIn "shares" name || pyIn "quantity" name

/-- Error message of the date branch when the strict regex does not match. -/
def dateFmtMsg : String :=
  "❌ Please provide the date in MM/DD/YYYY format."

/-- Bad-month message of the date branch (shown to be unreachable). -/
def badMonthMsg : String :=
  "❌ Invalid month. Please provide a date in MM/DD/YYYY format (month must be 01-12)."

/-- Bad-day message of the date branch (shown to be unreachable). -/
def badDayMsg : String :=
  "❌ Invalid day. Please provide a date in MM/DD/YYYY format (day must be 01-31)."

/-- Empty-value message. -/
def requiredMsg : String :=
  "This field is required. Please provide a value."

/-- Amount branch rejection message. -/
def amountErrMsg : String :=
  "❌ Please provide a valid amount (numbers only, $ symbol optional)."

/-- Percentage branch rejection message. -/
def pctErrMsg : String :=
  "❌ Please provide a valid percentage (e.g., 20 or 20%)."

/-- Phone branch rejection message. -/
def phoneErrMsg : String :=
  "❌ Please provide a valid phone number (10-15 digits)."

/-- Generic number branch rejection message. -/
def numberErrMsg : String :=
  "❌ Please provide a valid number."

/-- Email branch rejection message. -/
def emailErrMsg : String :=
  "❌ That doesn\x27t appear to be a valid email address.\n\nPlease provide a valid email address:"

/-- Month/term rejection message for non-positive numbers. -/
def monthPosMsg (fieldName : String) : String :=
  "❌ The \"" ++ fieldName ++ "\" field should be a positive number of months (e.g., 6, 12, or 24)."

/-- Month/term rejection message for non-numeric input. -/
def monthNanMsg (fieldName : String) : String :=
  "❌ The \"" ++ fieldName ++ "\" field expects a number (e.g., 6, 12, or 24 months), not a date or text."

/-- Strict match of `^(0[1-9]|1[0-2])/(0[1-9]|[12][0-9]|3[01])/(\d{4})$`,
returning the month and day values (` int(match.group(i))`). -/
def matchDateMMDDYYYY (s : String) : Option (Nat × Nat) :=
  match s.data with
  | [m1, m2, s1, d1, d2, s2, y1, y2, y3, y4] =>
    if s1 == '/' && s2 == '/' &&
       ((m1 == '0' && ['1', '2', '3', '4', '5', '6', '7', '8', '9'].contains m2) ||
        (m1 == '1' && ['0', '1', '2'].contains m2)) &&
       ((d1 == '0' && ['1', '2', '3', '4', '5', '6', '7', '8', '9'].contains d2) ||
        ((d1 == '1' || d1 == '2') && isDigitCh d2) ||
        (d1 == '3' && (d2 == '0' || d2 == '1'))) &&
       isDigitCh y1 && isDigitCh y2 && isDigitCh y3 && isDigitCh y4 then
      some (digitVal m1 * 10 + digitVal m2, digitVal d1 * 10 + digitVal d2)
    else none
  | _ => none

/-- The month/term number branch body (input already stripped). -/
def monthBranch (value : String) (ph : Placeholder) : VResult :=
  let cleaned := pyStrip (dropChars (fun c => c == ',') value)
  match parseFloat? cleaned with
  | none => .err (monthNanMsg ph.name)
  | some number =>
    if dLe number ⟨0, 0⟩ then .err (monthPosMsg ph.name)
    else if dIsInt number then .ok (intToDec (dToInt number))
    else .ok (pyFloatRepr number)

/-- The date branch body, including the range checks of the source (which the
anchored regex makes unreachable; see `claim_C7_amended`). -/
def dateBranch (value : String) : VResult :=
  match matchDateMMDDYYYY value with
  | some (month, day) =>
    if month < 1 || 12 < month then .err badMonthMsg
    else if day < 1 || 31 < day then .err badDayMsg
    else .ok value
  | none => .err dateFmtMsg

/-- The state-abbreviation table of the address branch. -/
def stateMap : List (String × String) :=
  [("de", "Delaware"), ("ca", "California"), ("ny", "New York"), ("tx", "Texas"),
   ("fl", "Florida"), ("il", "Illinois"), ("nv", "Nevada"), ("wy", "Wyoming")]

/-- The address/state branch body. -/
def addressBranch (value : String) (ph : Placeholder) : VResult :=
  let name := pyLower ph.name
  if pyIn "state" name || pyIn "jurisdiction" name then
    let valueLower := pyStrip (pyLower value)
    match (stateMap.find? (fun e => e.1 == valueLower)).map Prod.snd with
    | some full => .ok full
    | none =>
      if value.data.length == 2 then .ok (pyUpper value)
      else .ok (pyTitle value)
  else .ok (normWS value)

/-- The amount branch body (input already stripped). -/
def amountBranch (value : String) : VResult :=
  let cleaned := dropChars (fun c => c == ',' || c == '$') value
  match parseFloat? cleaned with
  | none => .err amountErrMsg
  | some amount =>
    let formatted := if dLe ⟨1000, 0⟩ amount then "$" ++ fmtComma0 amount
                     else "$" ++ fmtFixed2 amount
    if !(pyStarts value "$") then .ok formatted
    else
      let v2 := dropChars (fun c => c == ',') value
      if dLe ⟨1000, 0⟩ amount then .ok formatted else .ok v2

/-- The percentage branch body (input already stripped). -/
def percentageBranch (value : String) : VResult :=
  let cleaned := pyStrip (dropChars (fun c => c == '%') value)
  match parseFloat? cleaned with
  | none => .err pctErrMsg
  | some percentage =>
    if dLt ⟨1, 0⟩ percentage && dLe percentage ⟨100, 0⟩ then
      .ok (pyFloatRepr percentage ++ "%")
    else if dLe percentage ⟨1, 0⟩ then
      .ok (pyFloatRepr (dMulInt percentage 100) ++ "%")
    else
      .ok (pyFloatRepr percentage ++ "%")

/-- The phone branch body (input already stripped). -/
def phoneBranch (value : String) : VResult :=
  let cleaned := (dropChars (fun c => wsChar c || c == '-' || c == '(' || c == ')' || c == '+') value).data
  if !((!cleaned.isEmpty) && cleaned.all isDigitCh) || cleaned.length < 10 || 15 < cleaned.length then
    .err phoneErrMsg
  else if cleaned.length == 10 then
    .ok ("(" ++ ⟨cleaned.take 3⟩ ++ ") " ++ ⟨(cleaned.drop 3).take 3⟩ ++ "-" ++ ⟨cleaned.drop 6⟩)
  else .ok value

/-- The generic number branch body (input already stripped). -/
def numberBranch (value : String) : VResult :=
  let cleaned := dropChars (fun c => c == ',') value
  match parseFloat? cleaned with
  | none => .err numberErrMsg
  | some number =>
    if dLe ⟨1000, 0⟩ number && dIsInt number then .ok (intGroup (dToInt number))
    else .ok value

/-- `_validate_placeholder_value`: strip, require nonempty, then dispatch down
the branch chain in source order (email, month/number, date, address, amount,
percentage, phone, number, default text cleanup). -/
def validatePlaceholderValue (value : String) (ph : Placeholder) : VResult :=
  let v := pyStrip value
  if v == "" then .err requiredMsg
  else if isEmailField ph then
    (if isEmail v then .ok v else .err emailErrMsg)
  else if isMonthNumberField ph then monthBranch v ph
  else if isDateField ph then dateBranch v
  else if isAddressField ph then addressBranch v ph
  else if isAmountField ph then amountBranch v
  else if isPercentageField ph then percentageBranch v
  else if isPhoneField ph then phoneBranch v
  else if isNumberField ph then numberBranch v
  else .ok (normWS v)

/-! ## Smart deduplication (`placeholder_detector._smart_deduplicate`) -/

/-- The context-aware grouping signature.  Every branch appends
`_{location_type}_{location}`, which is what keeps different physical
locations in different groups. -/
def signature (p : Placeholder) : String :=
  let nameLower := pyStrip (pyLower p.name)
  let contextLower := pyLower p.context
  let lt := locTypeStr p.location
  let ls := locStr p.location
  if pyStarts p.original "$[" || (pyStarts p.original "[" && 10 < p.original.data.length) then
    if pyStarts p.original "$[" && (pyIn "_" p.original || 8 < p.original.data.length) then
      if pyIn "purchase amount" contextLower || pyIn "payment by" contextLower ||
         pyIn "exchange for" contextLower then
        "purchase_amount_" ++ lt ++ "_" ++ ls
      else if pyIn "post-money valuation cap" contextLower || pyIn "valuation cap" contextLower then
        "valuation_cap_" ++ lt ++ "_" ++ ls
      else if pyIn "post money" contextLower then
        "valuation_cap_" ++ lt ++ "_" ++ ls
      else
        "amount_field_" ++ lt ++ "_" ++ ls
    else
      nameLower ++ "_" ++ lt ++ "_" ++ ls
  else
    p.normalizedKey ++ "_" ++ lt ++ "_" ++ ls

/-- First-seen-order deduplication of a string list (the iteration order of a
CPython dict built by repeated insertion). -/
def fsDedup : List String → List String
  | [] => []
  | x :: xs => x :: fsDedup (xs.filter (fun y => !(y == x)))
termination_by l => l.length
decreasing_by
  exact Nat.lt_succ_of_le (List.length_filter_le _ _)

/-- Distance used by the proximity test (`abs(a - b)` on positions). -/
def natDist (a b : Nat) : Nat :=
  max a b - min a b

/-- The proximity filter over a position-sorted group: keep an entry unless an
already-kept entry sits within 10 characters of it. -/
def proxFilter (seen : List (Nat × Nat)) : List Placeholder → List Placeholder
  | [] => []
  | p :: rest =>
    if seen.any (fun sp => natDist p.position.1 sp.1 < 10) then
      proxFilter seen rest
    else
      p :: proxFilter (p.position :: seen) rest

/-- Per-group handling: singleton groups pass through; larger groups are
position-sorted and proximity-filtered. -/
def processGroup (group : List Placeholder) : List Placeholder :=
  if group.length == 1 then group
  else proxFilter [] (group.mergeSort (fun a b => a.position.1 ≤ b.position.1))

/-- `_smart_deduplicate`: group by signature (first-seen group order), then
dedup within each group by position proximity. -/
def smartDeduplicate (ps : List Placeholder) : List Placeholder :=
  if ps.isEmpty then []
  else
    (fsDedup (ps.map signature)).flatMap
      (fun sig => processGroup (ps.filter (fun p => signature p == sig)))

/-! ## Preview rendering, table-cell path (`generate_preview`, lines 395-426) -/

/-- The replacement for a filled placeholder in a table cell. -/
def filledSpan (value : String) : String :=
  "<span class=\"placeholder-filled\">" ++ value ++ "</span>"

/-- The replacement for an unfilled placeholder in a table cell. -/
def unfilledSpan (original : String) : String :=
  "<span class=\"placeholder-unfilled\">" ++ original ++ "</span>"

/-- The table-cell highlighting loop of `generate_preview`: for each
placeholder in the full list (no location filter, unlike the paragraph path
above it), replace every occurrence of its original text. -/
def previewCellText (placeholders : List Placeholder) (fv : FilledValues)
    (cellText : String) : String :=
  placeholders.foldl
    (fun text p =>
      if fvContains fv p.id || fvContains fv p.key then
        let value := (fvGet? fv p.id).getD ((fvGet? fv p.key).getD "")
        pyReplaceAll text p.original (filledSpan value)
      else
        pyReplaceAll text p.original (unfilledSpan p.original))
    cellText

/-! ## Session operations (`backend/app.py`) -/

/-- The per-session state the modelled endpoints read and write. -/
structure Session where
  placeholders : List Placeholder
  filledValues : FilledValues
  currentPlaceholderIndex : Option Nat
deriving DecidableEq

/-- Progress percentage: `round((len(filled_values) / len(placeholders) * 100), 1)`
(0 when there are no placeholders). -/
def progressPercentage (filledLen totalLen : Nat) : ℚ :=
  if totalLen == 0 then 0
  else pyRound1 ((filledLen : ℚ) / (totalLen : ℚ) * 100)

/-- Response payload of `/api/edit-field` (the fields the claims reference). -/
structure EditResponse where
  filledCount : Nat
  totalCount : Nat
  progressPct : ℚ
  currentIndex : Option Nat
deriving DecidableEq

/-- Outcome of the `edit_field` endpoint. -/
inductive EditResult where
  | fieldNotFound
  | invalidValue (msg : String)
  | ok (sess : Session) (resp : EditResponse)
deriving DecidableEq

/-- The auto-fill loop of `edit_field` (app.py lines 595-600): every other
placeholder with the same name receives the value, with no check that it was
still unfilled. -/
def editAutoFill (placeholders : List Placeholder) (placeholderId currentName value : String)
    (fv : FilledValues) : FilledValues :=
  placeholders.foldl
    (fun acc ph =>
      if !(ph.id == placeholderId) && ph.name == currentName then
        fvSet acc ph.id value
      else acc)
    fv

/-- `edit_field` (app.py lines 561-633): locate by id or key, validate, store
under the id (and under the request key when it differs), auto-fill all
same-named placeholders, reposition the current index, and report counts. -/
def editField (sess : Session) (fieldKey newValue : String) : EditResult :=
  match sess.placeholders.find? (fun p => p.id == fieldKey || p.key == fieldKey) with
  | none => .fieldNotFound
  | some placeholder =>
    let placeholderId := placeholder.id
    match validatePlaceholderValue newValue placeholder with
    | .err m => .invalidValue m
    | .ok processed =>
      let fv1 := fvSet sess.filledValues placeholderId processed
      let fv2 := if placeholderId == fieldKey then fv1 else fvSet fv1 fieldKey processed
      let fv3 := editAutoFill sess.placeholders placeholderId placeholder.name processed fv2
      let fieldIndex := sess.placeholders.findIdx? (fun p => p.key == fieldKey)
      let cur := match fieldIndex with
        | some i => some i
        | none => sess.currentPlaceholderIndex
      let respIndex := if fv3.length < sess.placeholders.length then some fv3.length else none
      .ok { sess with filledValues := fv3, currentPlaceholderIndex := cur }
         { filledCount := fv3.length,
           totalCount := sess.placeholders.length,
           progressPct := progressPercentage fv3.length sess.placeholders.length,
           currentIndex := respIndex }

/-- Filled test used by the next-unfilled scans: the placeholder's id or key
is a key of the map. -/
def filledB (fv : FilledValues) (p : Placeholder) : Bool :=
  fvContains fv p.id || fvContains fv p.key

/-- The next-unfilled scan of `fill_field_directly` (app.py lines 887-894):
first index, from 0, whose id and key are both absent. -/
def nextUnfilledFrom : List Placeholder → FilledValues → Option Nat
  | [], _ => none
  | p :: rest, fv =>
    if filledB fv p then (nextUnfilledFrom rest fv).map (· + 1)
    else some 0

/-- Filled test of the `process_message` scan (ai_service lines 384-390):
membership of the id or key in `all_filled_keys` or in `filled_values`. -/
def aiFilledB (allKeys : List String) (fv : FilledValues) (p : Placeholder) : Bool :=
  allKeys.contains p.id || allKeys.contains p.key ||
  fvContains fv p.id || fvContains fv p.key

/-- The next-unfilled scan of `process_message` (ai_service lines 374-398). -/
def aiNextIndexFrom : List Placeholder → List String → FilledValues → Option Nat
  | [], _, _ => none
  | p :: rest, allKeys, fv =>
    if aiFilledB allKeys fv p then (aiNextIndexFrom rest allKeys fv).map (· + 1)
    else some 0

/-- Response payload of `/api/fill-field`. -/
structure FillResponse where
  filledCount : Nat
  totalCount : Nat
  progressPct : ℚ
  nextIndex : Option Nat
  autoFilled : List String
deriving DecidableEq

/-- Outcome of the `fill_field_directly` endpoint. -/
inductive FillResult where
  | fieldNotFound
  | invalidValue (msg : String)
  | ok (sess : Session) (resp : FillResponse)
deriving DecidableEq

/-- The auto-fill loop of `fill_field_directly` (app.py lines 876-882):
same-named placeholders receive the value only if not already filled, and the
names of the auto-filled fields are collected. -/
def directAutoFill (placeholders : List Placeholder) (placeholderId currentName value : String)
    (fv : FilledValues) : FilledValues × List String :=
  placeholders.foldl
    (fun acc ph =>
      if !(ph.id == placeholderId) && ph.name == currentName then
        if !(fvContains acc.1 ph.id) then
          (fvSet acc.1 ph.id value, acc.2 ++ [ph.name])
        else acc
      else acc)
    (fv, [])

/-- `fill_field_directly` (app.py lines 841-915): locate by id or key,
validate, store under the id, auto-fill unfilled same-named placeholders,
then scan from index 0 for the next unfilled placeholder. -/
def fillFieldDirectly (sess : Session) (fieldKey value : String) : FillResult :=
  match sess.placeholders.find? (fun p => p.id == fieldKey || p.key == fieldKey) with
  | none => .fieldNotFound
  | some placeholder =>
    let placeholderId := placeholder.id
    match validatePlaceholderValue value placeholder with
    | .err m => .invalidValue m
    | .ok processed =>
      let fv1 := fvSet sess.filledValues placeholderId processed
      let filled := directAutoFill sess.placeholders placeholderId placeholder.name processed fv1
      let nextIndex := nextUnfilledFrom sess.placeholders filled.1
      .ok { sess with filledValues := filled.1 }
         { filledCount := filled.1.length,
           totalCount := sess.placeholders.length,
           progressPct := progressPercentage filled.1.length sess.placeholders.length,
           nextIndex := nextIndex,
           autoFilled := filled.2 }

/-! ## Completion gate (`complete_document`, app.py lines 1023-1036) -/

/-- Outcome of the completion gate: refuse with the reported names and count,
or proceed to compose the final document. -/
inductive CompleteResult where
  | incomplete (unfilledNames : List String) (unfilledCount : Nat)
  | proceedToCompose
deriving DecidableEq

/-- `complete_document`'s gate: if the entry count of `filled_values` is below
the placeholder count, refuse, reporting the names of the first 5 placeholders
whose `key` is not a map key; otherwise compose. -/
def completeGate (placeholders : List Placeholder) (fv : FilledValues) : CompleteResult :=
  if fv.length < placeholders.length then
    let unfilled := placeholders.filter (fun p => !(fvContains fv p.key))
    .incomplete ((unfilled.take 5).map Placeholder.name) unfilled.length
  else .proceedToCompose

/-! ## Generic scan used by the next-pointer lemmas -/

/-- First index (from 0) failing a predicate; both next-unfilled scans are
instances of this shape. -/
def scanFirst (pred : Placeholder → Bool) : List Placeholder → Option Nat
  | [] => none
  | p :: rest => if pred p then (scanFirst pred rest).map (· + 1) else some 0

/-! ## Concrete scenario data used by witnesses and counterexamples -/

/-- A placeholder named `Term Months`, typed by the classifier. -/
def termMonthsPh : Placeholder :=
  { id := "ph_tm01", key := "term_months_2", normalizedKey := "term_months",
    name := "Term Months", original := "[Term Months]",
    type := identifyPlaceholderType "Term Months",
    location := .para 2, position := (10, 23), context := "for a term of [Term Months] months" }

/-- A placeholder named `Effective Date`, typed by the classifier. -/
def effectiveDatePh : Placeholder :=
  { id := "ph_ed01", key := "effective_date_1", normalizedKey := "effective_date",
    name := "Effective Date", original := "[Effective Date]",
    type := identifyPlaceholderType "Effective Date",
    location := .para 1, position := (4, 20), context := "as of [Effective Date] between" }

/-- A placeholder named `Discount Rate`, typed by the classifier. -/
def discountRatePh : Placeholder :=
  { id := "ph_dr01", key := "discount_rate_4", normalizedKey := "discount_rate",
    name := "Discount Rate", original := "[Discount Rate]",
    type := identifyPlaceholderType "Discount Rate",
    location := .para 4, position := (8, 23), context := "a discount rate of [Discount Rate]" }

/-- A placeholder named `Purchase Amount`, typed by the classifier. -/
def purchaseAmountPh : Placeholder :=
  { id := "ph_pa01", key := "purchase_amount_3", normalizedKey := "purchase_amount",
    name := "Purchase Amount", original := "$[_________]",
    type := identifyPlaceholderType "Purchase Amount",
    location := .para 3, position := (26, 38), context := "the purchase amount of $[_________] (the" }

/-- Two same-named `Company Name` placeholders for the edit/auto-fill
scenarios. -/
def companyPhA : Placeholder :=
  { id := "idA", key := "kA", normalizedKey := "company_name",
    name := "Company Name", original := "[Company Name]", type := "company",
    location := .para 0, position := (5, 19), context := "between [Company Name], a" }

/-- The second `Company Name` occurrence, in a different paragraph. -/
def companyPhB : Placeholder :=
  { id := "idB", key := "kB", normalizedKey := "company_name",
    name := "Company Name", original := "[Company Name]", type := "company",
    location := .para 3, position := (2, 16), context := "by [Company Name] under" }

/-- Session for the C4 scenario: `companyPhB` is already filled. -/
def editSessC4 : Session :=
  { placeholders := [companyPhA, companyPhB],
    filledValues := [("idB", "Old Corp")],
    currentPlaceholderIndex := some 0 }

/-- Session for the C10 scenario: one placeholder, nothing filled yet. -/
def c10Sess : Session :=
  { placeholders := [companyPhA], filledValues := [], currentPlaceholderIndex := some 0 }

/-- Placeholder factory for the completion-gate scenarios. -/
def mkGateP (i : Nat) : Placeholder :=
  { id := "id" ++ natToDec i, key := "k" ++ natToDec i, normalizedKey := "f",
    name := "F" ++ natToDec i, original := "[F]", type := "text",
    location := .para i, position := (0, 3), context := "c" }

/-- Ten placeholders for the completion-gate scenarios. -/
def gatePs : List Placeholder :=
  [mkGateP 1, mkGateP 2, mkGateP 3, mkGateP 4, mkGateP 5,
   mkGateP 6, mkGateP 7, mkGateP 8, mkGateP 9, mkGateP 10]

/-- Nine of the ten filled the way the chat and fill endpoints store values:
under the placeholder ids. -/
def gateFvIds : FilledValues :=
  [("id1", "v"), ("id2", "v"), ("id3", "v"), ("id4", "v"), ("id5", "v"),
   ("id6", "v"), ("id7", "v"), ("id8", "v"), ("id9", "v")]

/-- Nine of the ten filled under the placeholder keys. -/
def gateFvKeys : FilledValues :=
  [("k1", "v"), ("k2", "v"), ("k3", "v"), ("k4", "v"), ("k5", "v"),
   ("k6", "v"), ("k7", "v"), ("k8", "v"), ("k9", "v")]

/-- An identical dollar blank in paragraph 0 (C5 witness). -/
def sigBlankA : Placeholder :=
  { id := "ph_x1", key := "purchase_amount_0", normalizedKey := "purchase_amount",
    name := "Purchase Amount", original := "$[___]", type := "amount",
    location := .para 0, position := (4, 10), context := "pay $[___] now" }

/-- The same dollar blank, in paragraph 1 (C5 witness). -/
def sigBlankB : Placeholder :=
  { id := "ph_x2", key := "purchase_amount_1", normalizedKey := "purchase_amount",
    name := "Purchase Amount", original := "$[___]", type := "amount",
    location := .para 1, position := (4, 10), context := "pay $[___] now" }

/-- A paragraph-located placeholder whose literal also occurs in a table cell
(C2 failing input). -/
def crossLocPh : Placeholder :=
  { id := "ph_x1", key := "purchase_amount_0", normalizedKey := "purchase_amount",
    name := "Purchase Amount", original := "$[___]", type := "amount",
    location := .para 0, position := (4, 10), context := "pay $[___] now" }

/-! ## Supporting lemmas: lists, digits and separators -/

theorem concat_inj {xs ys : List Char} {a b : Char}
    (h : xs ++ [a] = ys ++ [b]) : xs = ys ∧ a = b := by
  have h2 := congrArg List.reverse h
  simp only [List.reverse_append, List.reverse_cons, List.reverse_nil,
    List.nil_append, List.singleton_append] at h2
  obtain ⟨hab, hr⟩ := List.cons.inj h2
  exact ⟨List.reverse_injective hr, hab⟩

theorem takeWhile_sep {sep : Char} {l1 l2 : List Char}
    (h : ∀ c ∈ l1, c ≠ sep) :
    (l1 ++ sep :: l2).takeWhile (fun c => !(c == sep)) = l1 := by
  induction l1 with
  | nil => simp [List.takeWhile_cons]
  | cons c cs ih =>
    have hc : c ≠ sep := h c (by simp)
    have hcs : ∀ x ∈ cs, x ≠ sep := fun x hx => h x (by simp [hx])
    simp only [List.cons_append, List.takeWhile_cons]
    simp [hc, ih hcs]

theorem sep_split {sep : Char} {xs ys zs ws : List Char}
    (hys : ∀ c ∈ ys, c ≠ sep) (hws : ∀ c ∈ ws, c ≠ sep)
    (h : xs ++ sep :: ys = zs ++ sep :: ws) : xs = zs ∧ ys = ws := by
  have h2 := congrArg List.reverse h
  simp only [List.reverse_append, List.reverse_cons, List.append_assoc,
    List.singleton_append] at h2
  have hys2 : ∀ c ∈ ys.reverse, c ≠ sep := fun c hc => hys c (List.mem_reverse.1 hc)
  have hws2 : ∀ c ∈ ws.reverse, c ≠ sep := fun c hc => hws c (List.mem_reverse.1 hc)
  have ht := congrArg (List.takeWhile (fun c => !(c == sep))) h2
  rw [takeWhile_sep hys2, takeWhile_sep hws2] at ht
  have hyw : ys = ws := List.reverse_injective ht
  subst hyw
  exact ⟨List.append_cancel_right h, rfl⟩

theorem digitChar_ne_underscore (d : Nat) : digitChar d ≠ '_' := by
  rcases d with _ | _ | _ | _ | _ | _ | _ | _ | _ | d <;> simp [digitChar]

theorem digitChar_ne_dash (d : Nat) : digitChar d ≠ '-' := by
  rcases d with _ | _ | _ | _ | _ | _ | _ | _ | _ | d <;> simp [digitChar]

theorem digitChar_inj {a b : Nat} (ha : a < 10) (hb : b < 10)
    (h : digitChar a = digitChar b) : a = b := by
  interval_cases a <;> interval_cases b <;> simp_all [digitChar]

theorem decDigitsAux_congr : ∀ f g n, n < f → n < g → decDigitsAux f n = decDigitsAux g n := by
  intro f
  induction f with
  | zero => intro g n hf; omega
  | succ f ih =>
    intro g n hf hg
    match g, hg with
    | g + 1, hg =>
      simp only [decDigitsAux]
      by_cases h10 : n < 10
      · simp [h10]
      · have hd : n / 10 < n := Nat.div_lt_self (by omega) (by omega)
        simp only [h10, if_false]
        rw [ih g (n / 10) (by omega) (by omega)]

theorem decDigits_lt10 {n : Nat} (h : n < 10) : decDigits n = [digitChar n] := by
  simp [decDigits, decDigitsAux, h]

theorem decDigits_ge10 {n : Nat} (h : ¬ n < 10) :
    decDigits n = decDigits (n / 10) ++ [digitChar (n % 10)] := by
  have hd : n / 10 < n := Nat.div_lt_self (by omega) (by omega)
  have e : decDigits n =
      if n < 10 then [digitChar n]
      else decDigitsAux n (n / 10) ++ [digitChar (n % 10)] := rfl
  rw [e, if_neg h, decDigitsAux_congr n (n / 10 + 1) (n / 10) (by omega) (by omega)]
  rfl

theorem decDigits_ne_nil (n : Nat) : decDigits n ≠ [] := by
  by_cases h : n < 10
  · rw [decDigits_lt10 h]; simp
  · rw [decDigits_ge10 h]; simp

theorem decDigits_sep (n : Nat) : ∀ c ∈ decDigits n, c ≠ '_' ∧ c ≠ '-' := by
  induction n using Nat.strong_induction_on with
  | _ n ih =>
    intro c hc
    by_cases h : n < 10
    · rw [decDigits_lt10 h] at hc
      simp only [List.mem_singleton] at hc
      subst hc
      exact ⟨digitChar_ne_underscore n, digitChar_ne_dash n⟩
    · rw [decDigits_ge10 h] at hc
      rcases List.mem_append.1 hc with h1 | h1
      · exact ih (n / 10) (Nat.div_lt_self (by omega) (by omega)) c h1
      · simp only [List.mem_singleton] at h1
        subst h1
        exact ⟨digitChar_ne_underscore _, digitChar_ne_dash _⟩

theorem decDigits_inj : ∀ {n m : Nat}, decDigits n = decDigits m → n = m := by
  intro n
  induction n using Nat.strong_induction_on with
  | _ n ih =>
    intro m h
    by_cases hn : n < 10 <;> by_cases hm : m < 10
    · rw [decDigits_lt10 hn, decDigits_lt10 hm] at h
      exact digitChar_inj hn hm (List.cons.inj h).1
    · rw [decDigits_lt10 hn, decDigits_ge10 hm] at h
      have hl := congrArg List.length h
      simp only [List.length_singleton, List.length_append] at hl
      have : decDigits (m / 10) = [] := List.length_eq_zero.1 (by omega)
      exact absurd this (decDigits_ne_nil _)
    · rw [decDigits_ge10 hn, decDigits_lt10 hm] at h
      have hl := congrArg List.length h
      simp only [List.length_singleton, List.length_append] at hl
      have : decDigits (n / 10) = [] := List.length_eq_zero.1 (by omega)
      exact absurd this (decDigits_ne_nil _)
    · rw [decDigits_ge10 hn, decDigits_ge10 hm] at h
      obtain ⟨hq, hr⟩ := concat_inj h
      have h1 : n / 10 = m / 10 :=
        ih (n / 10) (Nat.div_lt_self (by omega) (by omega)) hq
      have h2 : n % 10 = m % 10 :=
        digitChar_inj (Nat.mod_lt _ (by omega)) (Nat.mod_lt _ (by omega)) hr
      have e1 := Nat.div_add_mod n 10
      have e2 := Nat.div_add_mod m 10
      omega

theorem natToDec_inj {n m : Nat} (h : natToDec n = natToDec m) : n = m :=
  decDigits_inj (congrArg String.data h)

/-! ## Location encoding is injective inside grouping signatures -/

theorem locStr_no_underscore (L : Loc) : ∀ c ∈ (locStr L).data, c ≠ '_' := by
  cases L with
  | para n =>
    intro c hc
    exact (decDigits_sep n c hc).1
  | table t r c =>
    intro x hx
    simp only [locStr, String.data_append] at hx
    have hdash : ('-' : Char) ≠ '_' := by decide
    rcases List.mem_append.1 hx with h1 | h1
    · rcases List.mem_append.1 h1 with h2 | h2
      · rcases List.mem_append.1 h2 with h3 | h3
        · rcases List.mem_append.1 h3 with h4 | h4
          · exact (decDigits_sep t x h4).1
          · simp only [List.mem_singleton] at h4; subst h4; exact hdash
        · exact (decDigits_sep r x h3).1
      · simp only [List.mem_singleton] at h2; subst h2; exact hdash
    · exact (decDigits_sep c x h1).1

theorem para_chars : ∀ c ∈ ("paragraph" : String).data, c ≠ '_' := by decide

theorem table_chars : ∀ c ∈ ("table" : String).data, c ≠ '_' := by decide

theorem para_ne_table : ("paragraph" : String) ≠ "table" := by decide

theorem locTypeStr_no_underscore (L : Loc) : ∀ c ∈ (locTypeStr L).data, c ≠ '_' := by
  cases L with
  | para n => exact para_chars
  | table t r c => exact table_chars

theorem tableStr_inj {t1 r1 c1 t2 r2 c2 : Nat}
    (h : natToDec t1 ++ "-" ++ natToDec r1 ++ "-" ++ natToDec c1 =
         natToDec t2 ++ "-" ++ natToDec r2 ++ "-" ++ natToDec c2) :
    t1 = t2 ∧ r1 = r2 ∧ c1 = c2 := by
  have hd := congrArg String.data h
  simp only [String.data_append] at hd
  have hd2 : (decDigits t1 ++ '-' :: decDigits r1) ++ '-' :: decDigits c1 =
             (decDigits t2 ++ '-' :: decDigits r2) ++ '-' :: decDigits c2 := by
    simpa [List.append_assoc, natToDec] using hd
  have hc : ∀ n : Nat, ∀ x ∈ decDigits n, x ≠ '-' := fun n x hx => (decDigits_sep n x hx).2
  obtain ⟨h1, h2⟩ := sep_split (hc c1) (hc c2) hd2
  obtain ⟨h3, h4⟩ := sep_split (hc r1) (hc r2) h1
  exact ⟨decDigits_inj (by simpa [natToDec] using congrArg String.data (String.ext h3 : natToDec t1 = natToDec t2)),
         decDigits_inj h4, decDigits_inj h2⟩

theorem loc_encode_inj {L1 L2 : Loc}
    (ht : locTypeStr L1 = locTypeStr L2) (hs : locStr L1 = locStr L2) : L1 = L2 := by
  cases L1 with
  | para n1 =>
    cases L2 with
    | para n2 =>
      have := natToDec_inj (hs : natToDec n1 = natToDec n2)
      subst this; rfl
    | table t r c => exact absurd (ht : ("paragraph" : String) = "table") para_ne_table
  | table t1 r1 c1 =>
    cases L2 with
    | para n2 => exact absurd (ht : ("table" : String) = "paragraph").symm para_ne_table
    | table t2 r2 c2 =>
      obtain ⟨e1, e2, e3⟩ := tableStr_inj hs
      subst e1; subst e2; subst e3; rfl

theorem lit_purchase : ("purchase_amount_" : String).data = "purchase_amount".data ++ ['_'] := by
  decide

theorem lit_valuation : ("valuation_cap_" : String).data = "valuation_cap".data ++ ['_'] := by
  decide

theorem lit_amount_field : ("amount_field_" : String).data = "amount_field".data ++ ['_'] := by
  decide

theorem lit_underscore : ("_" : String).data = ['_'] := by decide

theorem signature_shape (p : Placeholder) :
    ∃ pre : List Char, (signature p).data =
      pre ++ '_' :: ((locTypeStr p.location).data ++ '_' :: (locStr p.location).data) := by
  unfold signature
  dsimp only
  split
  · split
    · split
      · exact ⟨"purchase_amount".data,
          by simp [String.data_append, lit_purchase, lit_underscore, List.append_assoc]⟩
      · split
        · exact ⟨"valuation_cap".data,
            by simp [String.data_append, lit_valuation, lit_underscore, List.append_assoc]⟩
        · split
          · exact ⟨"valuation_cap".data,
              by simp [String.data_append, lit_valuation, lit_underscore, List.append_assoc]⟩
          · exact ⟨"amount_field".data,
              by simp [String.data_append, lit_amount_field, lit_underscore, List.append_assoc]⟩
    · exact ⟨(pyStrip (pyLower p.name)).data,
        by simp [String.data_append, lit_underscore, List.append_assoc]⟩
  · exact ⟨p.normalizedKey.data,
      by simp [String.data_append, lit_underscore, List.append_assoc]⟩

theorem signature_loc {p q : Placeholder}
    (h : signature p = signature q) : p.location = q.location := by
  obtain ⟨pre1, h1⟩ := signature_shape p
  obtain ⟨pre2, h2⟩ := signature_shape q
  have hd := congrArg String.data h
  rw [h1, h2] at hd
  have hd2 : (pre1 ++ '_' :: (locTypeStr p.location).data) ++ '_' :: (locStr p.location).data =
             (pre2 ++ '_' :: (locTypeStr q.location).data) ++ '_' :: (locStr q.location).data := by
    simpa [List.append_assoc] using hd
  obtain ⟨e1, e2⟩ := sep_split (locStr_no_underscore _) (locStr_no_underscore _) hd2
  obtain ⟨_, e3⟩ := sep_split (locTypeStr_no_underscore _) (locTypeStr_no_underscore _) e1
  exact loc_encode_inj (String.ext e3) (String.ext e2)

/-! ## Membership facts about the deduplication pipeline -/

theorem mem_fsDedup {a : String} : ∀ l : List String, a ∈ fsDedup l ↔ a ∈ l := by
  have key : ∀ (n : Nat) (l : List String), l.length = n → (a ∈ fsDedup l ↔ a ∈ l) := by
    intro n
    induction n using Nat.strong_induction_on with
    | _ n ih =>
      intro l hn
      cases l with
      | nil => simp [fsDedup]
      | cons x xs =>
        rw [fsDedup]
        have hlt : (xs.filter (fun y => !(y == x))).length < n := by
          have := List.length_filter_le (fun y => !(y == x)) xs
          simp only [List.length_cons] at hn
          omega
        have ihx := ih _ hlt (xs.filter (fun y => !(y == x))) rfl
        by_cases hax : a = x
        · subst hax; simp
        · simp only [List.mem_cons, ihx, List.mem_filter]
          constructor
          · rintro (h | ⟨h, _⟩)
            · exact Or.inl h
            · exact Or.inr h
          · rintro (h | h)
            · exact Or.inl h
            · exact Or.inr ⟨h, by simp [hax]⟩
  intro l
  exact key l.length l rfl

theorem proxFilter_subset {q : Placeholder} :
    ∀ (seen : List (Nat × Nat)) (l : List Placeholder), q ∈ proxFilter seen l → q ∈ l := by
  intro seen l
  induction l generalizing seen with
  | nil => simp [proxFilter]
  | cons p rest ih =>
    intro h
    rw [proxFilter] at h
    split at h
    · exact List.mem_cons_of_mem _ (ih _ h)
    · rcases List.mem_cons.1 h with h1 | h1
      · exact h1 ▸ List.mem_cons_self _ _
      · exact List.mem_cons_of_mem _ (ih _ h1)

theorem processGroup_subset {q : Placeholder} {g : List Placeholder}
    (h : q ∈ processGroup g) : q ∈ g := by
  unfold processGroup at h
  split at h
  · exact h
  · exact List.mem_mergeSort.1 (proxFilter_subset _ _ h)

theorem processGroup_ne_nil {g : List Placeholder} (h : g ≠ []) :
    processGroup g ≠ [] := by
  unfold processGroup
  split
  · exact h
  · cases hms : g.mergeSort (fun a b => a.position.1 ≤ b.position.1) with
    | nil =>
      have hlen : (g.mergeSort (fun a b => a.position.1 ≤ b.position.1)).length = g.length :=
        List.length_mergeSort g
      rw [hms] at hlen
      exact absurd (List.length_eq_zero.1 hlen.symm) h
    | cons p rest =>
      simp [proxFilter]

theorem mem_smartDeduplicate_of_sig {ps : List Placeholder} {p : Placeholder}
    (hp : p ∈ ps) :
    ∃ q ∈ smartDeduplicate ps, signature q = signature p := by
  have hne : ¬ ps.isEmpty := by
    cases ps with
    | nil => cases hp
    | cons a l => simp
  unfold smartDeduplicate
  rw [if_neg hne]
  have hsig : signature p ∈ fsDedup (ps.map signature) :=
    (mem_fsDedup _).2 (List.mem_map_of_mem _ hp)
  have hgrp : p ∈ ps.filter (fun x => signature x == signature p) :=
    List.mem_filter.2 ⟨hp, by simp⟩
  have hgne : ps.filter (fun x => signature x == signature p) ≠ [] := by
    intro hnil; rw [hnil] at hgrp; cases hgrp
  have hpg := processGroup_ne_nil hgne
  cases hq : processGroup (ps.filter (fun x => signature x == signature p)) with
  | nil => exact absurd hq hpg
  | cons q rest =>
    refine ⟨q, ?_, ?_⟩
    · exact List.mem_flatMap.2 ⟨signature p, hsig, by rw [hq]; simp⟩
    · have : q ∈ ps.filter (fun x => signature x == signature p) :=
        processGroup_subset (by rw [hq]; simp)
      have := (List.mem_filter.1 this).2
      simpa using this

theorem smartDeduplicate_subset {ps : List Placeholder} {q : Placeholder}
    (h : q ∈ smartDeduplicate ps) : q ∈ ps := by
  unfold smartDeduplicate at h
  split at h
  · cases h
  · obtain ⟨sig, _, hq⟩ := List.mem_flatMap.1 h
    exact (List.mem_filter.1 (processGroup_subset hq)).1

/-! ## Properties of the first-unfilled scans -/

theorem scanFirst_none {pred : Placeholder → Bool} :
    ∀ ps : List Placeholder, scanFirst pred ps = none → ∀ p ∈ ps, pred p = true := by
  intro ps
  induction ps with
  | nil => intro _ p hp; cases hp
  | cons p rest ih =>
    intro h q hq
    rw [scanFirst] at h
    split at h
    · rcases List.mem_cons.1 hq with h1 | h1
      · subst h1; assumption
      · exact ih (Option.map_eq_none'.1 h) q h1
    · cases h

theorem scanFirst_some {pred : Placeholder → Bool} :
    ∀ (ps : List Placeholder) (j : Nat), scanFirst pred ps = some j →
      ∃ p, ps[j]? = some p ∧ pred p = false ∧
        ∀ k q, k < j → ps[k]? = some q → pred q = true := by
  intro ps
  induction ps with
  | nil => intro j h; cases h
  | cons p rest ih =>
    intro j h
    rw [scanFirst] at h
    split at h
    · obtain ⟨j2, hj2, hj⟩ := Option.map_eq_some'.1 h
      obtain ⟨q, hq, hqf, hall⟩ := ih j2 hj2
      subst hj
      refine ⟨q, by simpa using hq, hqf, ?_⟩
      intro k r hk hr
      cases k with
      | zero =>
        simp only [List.getElem?_cons_zero, Option.some.injEq] at hr
        subst hr; assumption
      | succ k2 =>
        simp only [List.getElem?_cons_succ] at hr
        exact hall k2 r (by omega) hr
    · have hj : j = 0 := by
        simpa using h.symm
      subst hj
      refine ⟨p, by simp, by simp_all, ?_⟩
      intro k q hk
      omega

theorem nextUnfilledFrom_eq_scan (ps : List Placeholder) (fv : FilledValues) :
    nextUnfilledFrom ps fv = scanFirst (filledB fv) ps := by
  induction ps with
  | nil => rfl
  | cons p rest ih => rw [nextUnfilledFrom, scanFirst, ih]

theorem aiNextIndexFrom_eq_scan (ps : List Placeholder) (allKeys : List String)
    (fv : FilledValues) :
    aiNextIndexFrom ps allKeys fv = scanFirst (aiFilledB allKeys fv) ps := by
  induction ps with
  | nil => rfl
  | cons p rest ih => rw [aiNextIndexFrom, scanFirst, ih]

/-! ## Claim theorems -/

/-- C5: candidates in different `(location_type, location)` units are never
merged by `_smart_deduplicate`: for any candidate list with pairwise distinct
ids, two candidates at different locations leave two surviving placeholders
with those locations and distinct ids in the deduplicated output.  The key
step is that every grouping signature embeds the location
(`signature_loc`), so cross-location candidates can never share a group. -/
theorem claim_C5_no_cross_location_merge :
    ∀ (ps : List Placeholder) (p1 p2 : Placeholder),
      p1 ∈ ps → p2 ∈ ps → p1.location ≠ p2.location →
      (ps.map Placeholder.id).Nodup →
      ∃ q1 q2 : Placeholder, q1 ∈ smartDeduplicate ps ∧ q2 ∈ smartDeduplicate ps ∧
        q1.location = p1.location ∧ q2.location = p2.location ∧ q1.id ≠ q2.id := by
  intro ps p1 p2 h1 h2 hloc hnd
  obtain ⟨q1, hq1m, hq1s⟩ := mem_smartDeduplicate_of_sig h1
  obtain ⟨q2, hq2m, hq2s⟩ := mem_smartDeduplicate_of_sig h2
  have hl1 : q1.location = p1.location := signature_loc hq1s
  have hl2 : q2.location = p2.location := signature_loc hq2s
  refine ⟨q1, q2, hq1m, hq2m, hl1, hl2, ?_⟩
  intro hid
  have hq1 : q1 ∈ ps := smartDeduplicate_subset hq1m
  have hq2 : q2 ∈ ps := smartDeduplicate_subset hq2m
  have heq : q1 = q2 := List.inj_on_of_nodup_map hnd hq1 hq2 hid
  rw [heq] at hl1
  exact hloc (hl1.symm.trans hl2)

/-- Witness for C5: two identical `$[___]` blanks, one in paragraph 0 and one
in paragraph 1, both survive deduplication with their locations and distinct
ids. -/
theorem claim_C5_no_cross_location_merge_witness :
    ∃ q1 q2 : Placeholder,
      q1 ∈ smartDeduplicate [sigBlankA, sigBlankB] ∧
      q2 ∈ smartDeduplicate [sigBlankA, sigBlankB] ∧
      q1.location = sigBlankA.location ∧ q2.location = sigBlankB.location ∧
      q1.id ≠ q2.id :=
  claim_C5_no_cross_location_merge [sigBlankA, sigBlankB] sigBlankA sigBlankB
    (by decide) (by decide) (by decide) (by decide)

/-- C3: both next-pointer computations (the `fill_field_directly` scan and the
`process_message` scan) start from index 0 and return the first placeholder
whose id and key are both absent from the updated filled set — so the
returned index is never a filled field and no earlier unfilled field is
skipped — and return `None` (DONE) exactly when every placeholder is filled;
moreover `fill_field_directly` reports exactly this scan applied to the
updated filled-value map. -/
theorem claim_C3_next_pointer :
    (∀ (ps : List Placeholder) (fv : FilledValues),
      (nextUnfilledFrom ps fv = none → ∀ p ∈ ps, filledB fv p = true) ∧
      (∀ j, nextUnfilledFrom ps fv = some j →
        ∃ p, ps[j]? = some p ∧ filledB fv p = false ∧
          ∀ k q, k < j → ps[k]? = some q → filledB fv q = true)) ∧
    (∀ (ps : List Placeholder) (allKeys : List String) (fv : FilledValues),
      (aiNextIndexFrom ps allKeys fv = none → ∀ p ∈ ps, aiFilledB allKeys fv p = true) ∧
      (∀ j, aiNextIndexFrom ps allKeys fv = some j →
        ∃ p, ps[j]? = some p ∧ aiFilledB allKeys fv p = false ∧
          ∀ k q, k < j → ps[k]? = some q → aiFilledB allKeys fv q = true)) ∧
    (∀ (sess : Session) (fieldKey value : String) (sess2 : Session) (resp : FillResponse),
      fillFieldDirectly sess fieldKey value = .ok sess2 resp →
      resp.nextIndex = nextUnfilledFrom sess.placeholders sess2.filledValues) := by
  refine ⟨?_, ?_, ?_⟩
  · intro ps fv
    rw [nextUnfilledFrom_eq_scan]
    exact ⟨scanFirst_none ps, scanFirst_some ps⟩
  · intro ps allKeys fv
    rw [aiNextIndexFrom_eq_scan]
    exact ⟨scanFirst_none ps, scanFirst_some ps⟩
  · intro sess fieldKey value sess2 resp h
    unfold fillFieldDirectly at h
    split at h
    · cases h
    · split at h
      · cases h
      · cases h
        rfl

/-- Witness for C3: with the first of two placeholders filled, the scan
reports index 1, which is unfilled, with every earlier index filled. -/
theorem claim_C3_next_pointer_witness :
    ∃ p, [companyPhA, companyPhB][1]? = some p ∧
      filledB [("idA", "Acme Inc")] p = false ∧
      ∀ k q, k < 1 → [companyPhA, companyPhB][k]? = some q →
        filledB [("idA", "Acme Inc")] q = true :=
  (claim_C3_next_pointer.1 [companyPhA, companyPhB] [("idA", "Acme Inc")]).2 1 (by decide)

theorem fvContains_iff {fv : FilledValues} {k : String} :
    fvContains fv k = true ↔ k ∈ fv.map Prod.fst := by
  unfold fvContains
  rw [List.any_eq_true]
  constructor
  · rintro ⟨e, he, hk⟩
    rw [beq_iff_eq] at hk
    exact List.mem_map.2 ⟨e, he, hk⟩
  · intro hk
    obtain ⟨e, he, hk2⟩ := List.mem_map.1 hk
    exact ⟨e, he, by rw [beq_iff_eq]; exact hk2⟩

/-- C1 counterexample: a session with placeholders `F1` … `F10` where `F1` …
`F9` are filled the way the chat and fill endpoints store values (under the
placeholder ids).  Exactly one placeholder (`F10`) is unfilled, so the claim
demands a failure listing that missing field's name; the code instead lists
the names of the first five placeholders — all but one of them already
filled — and reports 10 unfilled, because its unfilled list tests only
key-membership while the values sit under ids. -/
theorem claim_C1_counterexample :
    completeGate gatePs gateFvIds =
      .incomplete ["F1", "F2", "F3", "F4", "F5"] 10 ∧
    gatePs.filter (fun p => !(filledB gateFvIds p)) = [mkGateP 10] ∧
    (mkGateP 10).name = "F10" ∧
    ("F10" : String) ∉ (["F1", "F2", "F3", "F4", "F5"] : List String) := by
  refine ⟨by decide, by decide, by decide, by decide⟩

/-- C1 (amended): whenever `filled_values` holds fewer entries than there are
placeholders — in particular whenever each filled placeholder contributes
exactly one entry stored under its key and at least one placeholder is
missing — `complete_document` refuses to compose and reports the names of the
first (at most 5) placeholders whose `key` is absent from `filled_values`,
the missing placeholder being among the reported unfilled set; with 9 of 10
placeholders filled under their keys this lists exactly the 1 missing field
name (see the witness). -/
theorem claim_C1_amended :
    ∀ (ps : List Placeholder) (fv : FilledValues),
      (fv.map Prod.fst).Nodup →
      (∀ k ∈ fv.map Prod.fst, k ∈ ps.map Placeholder.key) →
      (ps.map Placeholder.key).Nodup →
      ∀ p0 ∈ ps, p0.key ∉ fv.map Prod.fst →
      completeGate ps fv =
        .incomplete
          (((ps.filter (fun p => !(fvContains fv p.key))).take 5).map Placeholder.name)
          ((ps.filter (fun p => !(fvContains fv p.key))).length) ∧
      p0 ∈ ps.filter (fun p => !(fvContains fv p.key)) := by
  intro ps fv hnodupK hsub hnodupP p0 hp0 hmiss
  have hcount : fv.length < ps.length := by
    have hsubF : (fv.map Prod.fst).toFinset ⊆ (ps.map Placeholder.key).toFinset.erase p0.key := by
      intro k hk
      rw [List.mem_toFinset] at hk
      refine Finset.mem_erase.2 ⟨?_, List.mem_toFinset.2 (hsub k hk)⟩
      intro hkk
      exact hmiss (hkk ▸ hk)
    have hmemP : p0.key ∈ (ps.map Placeholder.key).toFinset :=
      List.mem_toFinset.2 (List.mem_map_of_mem _ hp0)
    have hcard := Finset.card_le_card hsubF
    rw [Finset.card_erase_of_mem hmemP] at hcard
    rw [List.toFinset_card_of_nodup hnodupK, List.toFinset_card_of_nodup hnodupP] at hcard
    have hlen1 : (fv.map Prod.fst).length = fv.length := List.length_map _ _
    have hlen2 : (ps.map Placeholder.key).length = ps.length := List.length_map _ _
    have hpos : 0 < ps.length := List.length_pos.2 (by intro hnil; rw [hnil] at hp0; cases hp0)
    omega
  constructor
  · unfold completeGate
    rw [if_pos hcount]
  · refine List.mem_filter.2 ⟨hp0, ?_⟩
    simp only [Bool.not_eq_true']
    rw [Bool.eq_false_iff]
    intro hc
    exact hmiss (fvContains_iff.1 hc)

/-- Witness for C1 (amended): with `F1` … `F9` filled under their keys and
`F10` missing, the gate refuses and lists exactly `F10`. -/
theorem claim_C1_amended_witness :
    completeGate gatePs gateFvKeys =
      .incomplete
        (((gatePs.filter (fun p => !(fvContains gateFvKeys p.key))).take 5).map Placeholder.name)
        ((gatePs.filter (fun p => !(fvContains gateFvKeys p.key))).length) ∧
    mkGateP 10 ∈ gatePs.filter (fun p => !(fvContains gateFvKeys p.key)) :=
  claim_C1_amended gatePs gateFvKeys (by decide) (by decide) (by decide)
    (mkGateP 10) (by decide) (by decide)

/-! ## Validator branch lemmas -/

theorem matchDate_bounds {s : String} {m d : Nat}
    (h : matchDateMMDDYYYY s = some (m, d)) :
    1 ≤ m ∧ m ≤ 12 ∧ 1 ≤ d ∧ d ≤ 31 := by
  unfold matchDateMMDDYYYY at h
  split at h
  · rename_i m1 m2 s1 d1 d2 s2 y1 y2 y3 y4
    split at h
    · rename_i hcond
      obtain ⟨hm, hd⟩ := Prod.mk.injEq _ _ _ _ ▸ Option.some.inj h
      subst hm; subst hd
      simp only [Bool.and_eq_true, Bool.or_eq_true, beq_iff_eq, List.contains,
        List.elem_iff, isDigitCh, List.mem_cons, List.not_mem_nil, or_false,
        and_assoc] at hcond
      obtain ⟨hs1, hs2, hmo, hday, hy1, hy2, hy3, hy4⟩ := hcond
      refine ⟨?_, ?_, ?_, ?_⟩
      · rcases hmo with ⟨rfl, h9⟩ | ⟨rfl, h3⟩
        · rcases h9 with rfl | rfl | rfl | rfl | rfl | rfl | rfl | rfl | rfl <;> decide
        · rcases h3 with rfl | rfl | rfl <;> decide
      · rcases hmo with ⟨rfl, h9⟩ | ⟨rfl, h3⟩
        · rcases h9 with rfl | rfl | rfl | rfl | rfl | rfl | rfl | rfl | rfl <;> decide
        · rcases h3 with rfl | rfl | rfl <;> decide
      · rcases hday with (⟨rfl, h9⟩ | ⟨hd1, h10⟩) | ⟨rfl, h01⟩
        · rcases h9 with rfl | rfl | rfl | rfl | rfl | rfl | rfl | rfl | rfl <;> decide
        · rcases hd1 with rfl | rfl <;>
            rcases h10 with rfl | rfl | rfl | rfl | rfl | rfl | rfl | rfl | rfl | rfl <;> decide
        · rcases h01 with rfl | rfl <;> decide
      · rcases hday with (⟨rfl, h9⟩ | ⟨hd1, h10⟩) | ⟨rfl, h01⟩
        · rcases h9 with rfl | rfl | rfl | rfl | rfl | rfl | rfl | rfl | rfl <;> decide
        · rcases hd1 with rfl | rfl <;>
            rcases h10 with rfl | rfl | rfl | rfl | rfl | rfl | rfl | rfl | rfl | rfl <;> decide
        · rcases h01 with rfl | rfl <;> decide
    · cases h
  · cases h

theorem dispatch_month (value : String) (ph : Placeholder)
    (hE : isEmailField ph = false) (hM : isMonthNumberField ph = true) :
    validatePlaceholderValue value ph =
      (if pyStrip value == "" then .err requiredMsg else monthBranch (pyStrip value) ph) := by
  unfold validatePlaceholderValue
  simp only [hE, hM]
  split <;> simp

theorem dispatch_date (value : String) (ph : Placeholder)
    (hE : isEmailField ph = false) (hM : isMonthNumberField ph = false)
    (hD : isDateField ph = true) :
    validatePlaceholderValue value ph =
      (if pyStrip value == "" then .err requiredMsg else dateBranch (pyStrip value)) := by
  unfold validatePlaceholderValue
  simp only [hE, hM, hD]
  split <;> simp

theorem dispatch_amount (value : String) (ph : Placeholder)
    (hE : isEmailField ph = false) (hM : isMonthNumberField ph = false)
    (hD : isDateField ph = false) (hA : isAddressField ph = false)
    (hAm : isAmountField ph = true) :
    validatePlaceholderValue value ph =
      (if pyStrip value == "" then .err requiredMsg else amountBranch (pyStrip value)) := by
  unfold validatePlaceholderValue
  simp only [hE, hM, hD, hA, hAm]
  split <;> simp

theorem dispatch_percentage (value : String) (ph : Placeholder)
    (hE : isEmailField ph = false) (hM : isMonthNumberField ph = false)
    (hD : isDateField ph = false) (hA : isAddressField ph = false)
    (hAm : isAmountField ph = false) (hP : isPercentageField ph = true) :
    validatePlaceholderValue value ph =
      (if pyStrip value == "" then .err requiredMsg else percentageBranch (pyStrip value)) := by
  unfold validatePlaceholderValue
  simp only [hE, hM, hD, hA, hAm, hP]
  split <;> simp

theorem dateBranch_eq (value : String) :
    dateBranch value =
      (match matchDateMMDDYYYY value with
       | some _ => .ok value
       | none => .err dateFmtMsg) := by
  unfold dateBranch
  cases hm : matchDateMMDDYYYY value with
  | none => rfl
  | some md =>
    obtain ⟨m, d⟩ := md
    obtain ⟨h1, h2, h3, h4⟩ := matchDate_bounds hm
    dsimp only
    simp only [Bool.or_eq_true, decide_eq_true_eq]
    rw [if_neg (by omega), if_neg (by omega)]

/-- C7 counterexample: the input `13/01/2024` (month 13) is rejected with the
generic bad-format message, not with the bad-month message the claim
requires. -/
theorem claim_C7_counterexample :
    validatePlaceholderValue "13/01/2024" effectiveDatePh = .err dateFmtMsg ∧
    dateFmtMsg ≠ badMonthMsg := by
  refine ⟨by decide, by decide⟩

/-- C7 (amended): date validation accepts exactly the strict `MM/DD/YYYY`
regex, whose character classes already force month ∈ [1,12] and day ∈ [1,31];
it never autocorrects (the accepted value is returned verbatim); and every
rejection — including month `13` — yields the single generic bad-format
message: the distinct bad-month and bad-day messages in the source are
unreachable. -/
theorem claim_C7_amended :
    (∀ (s : String) (m d : Nat), matchDateMMDDYYYY s = some (m, d) →
      1 ≤ m ∧ m ≤ 12 ∧ 1 ≤ d ∧ d ≤ 31) ∧
    (∀ value : String, dateBranch value =
      (match matchDateMMDDYYYY value with
       | some _ => .ok value
       | none => .err dateFmtMsg)) ∧
    (∀ value : String,
      dateBranch value ≠ .err badMonthMsg ∧ dateBranch value ≠ .err badDayMsg) ∧
    (∀ (value : String) (ph : Placeholder),
      isEmailField ph = false → isMonthNumberField ph = false → isDateField ph = true →
      validatePlaceholderValue value ph =
        (if pyStrip value == "" then .err requiredMsg else dateBranch (pyStrip value))) := by
  refine ⟨fun s m d h => matchDate_bounds h, dateBranch_eq, ?_, dispatch_date⟩
  intro value
  rw [dateBranch_eq]
  cases hm : matchDateMMDDYYYY value with
  | none =>
    dsimp only
    exact ⟨by decide, by decide⟩
  | some md => exact ⟨by simp, by simp⟩

/-- Witness for C7 (amended): the dispatch law applied to the month-13 input
for the date-typed field. -/
theorem claim_C7_amended_witness :
    validatePlaceholderValue "13/01/2024" effectiveDatePh =
      (if pyStrip "13/01/2024" == "" then .err requiredMsg
       else dateBranch (pyStrip "13/01/2024")) :=
  claim_C7_amended.2.2.2 "13/01/2024" effectiveDatePh (by decide) (by decide) (by decide)

/-- C8: type precedence keeps month/number fields out of the date rule.  The
classifier types `Term Months` as `number` and `Effective Date` as `date`;
the input `12` is accepted for `Term Months` with processed value `12` and
rejected for `Effective Date` as an invalid date format; and for every
month/number-style field (outside the email branch) the validator runs the
number branch, never the date branch. -/
theorem claim_C8_validation_precedence :
    identifyPlaceholderType "Term Months" = "number" ∧
    identifyPlaceholderType "Effective Date" = "date" ∧
    validatePlaceholderValue "12" termMonthsPh = .ok "12" ∧
    validatePlaceholderValue "12" effectiveDatePh = .err dateFmtMsg ∧
    (∀ (value : String) (ph : Placeholder),
      isEmailField ph = false → isMonthNumberField ph = true →
      validatePlaceholderValue value ph =
        (if pyStrip value == "" then .err requiredMsg
         else monthBranch (pyStrip value) ph)) := by
  refine ⟨by decide, by decide, by decide, by decide, dispatch_month⟩

/-- Witness for C8: the month/number dispatch law applied to `12` for
`Term Months`. -/
theorem claim_C8_validation_precedence_witness :
    validatePlaceholderValue "12" termMonthsPh =
      (if pyStrip "12" == "" then .err requiredMsg
       else monthBranch (pyStrip "12") termMonthsPh) :=
  claim_C8_validation_precedence.2.2.2.2 "12" termMonthsPh (by decide) (by decide)

theorem percentageBranch_ok_suffix (value r : String)
    (h : percentageBranch value = .ok r) : ∃ core : String, r = core ++ "%" := by
  unfold percentageBranch at h
  dsimp only at h
  cases hp : parseFloat? (pyStrip (dropChars (fun c => c == '%') value)) with
  | none => rw [hp] at h; cases h
  | some p =>
    rw [hp] at h
    dsimp only at h
    split at h
    · exact ⟨pyFloatRepr p, (VResult.ok.inj h).symm⟩
    · split at h
      · exact ⟨pyFloatRepr (dMulInt p 100), (VResult.ok.inj h).symm⟩
      · exact ⟨pyFloatRepr p, (VResult.ok.inj h).symm⟩

theorem percentageBranch_scaled (value : String) (p : Dec)
    (hp : parseFloat? (pyStrip (dropChars (fun c => c == '%') value)) = some p)
    (h1 : dLt ⟨1, 0⟩ p = true) (h2 : dLe p ⟨100, 0⟩ = true) :
    percentageBranch value = .ok (pyFloatRepr p ++ "%") := by
  unfold percentageBranch
  dsimp only
  rw [hp]
  dsimp only
  simp [h1, h2]

theorem percentageBranch_fraction (value : String) (p : Dec)
    (hp : parseFloat? (pyStrip (dropChars (fun c => c == '%') value)) = some p)
    (h1 : dLe p ⟨1, 0⟩ = true) :
    percentageBranch value = .ok (pyFloatRepr (dMulInt p 100) ++ "%") := by
  have hlt : dLt ⟨1, 0⟩ p = false := by
    simp only [dLe, decide_eq_true_eq] at h1
    simp only [dLt, decide_eq_false_iff_not, not_lt]
    simp only [pow_zero, mul_one, one_mul] at h1 ⊢
    omega
  unfold percentageBranch
  dsimp only
  rw [hp]
  simp [hlt, h1]

/-- C6 counterexample: the raw input `20` for a percentage field is accepted
but formatted as `20.0%` (Python float printing keeps the `.0`), not as the
exact string `20%` the claim requires. -/
theorem claim_C6_counterexample :
    validatePlaceholderValue "20" discountRatePh = .ok "20.0%" ∧
    (VResult.ok "20.0%" : VResult) ≠ .ok "20%" := by
  refine ⟨by decide, by decide⟩

/-- C6 (amended): percentage validation strips `%`, treats a parsed value in
(1,100] as an already-scaled percentage and a value ≤ 1 as a fraction
multiplied by 100, and always suffixes `%` — but renders through Python float
formatting, so `20` and `0.2` both format as exactly `20.0%` (not `20%`). -/
theorem claim_C6_amended :
    validatePlaceholderValue "20" discountRatePh = .ok "20.0%" ∧
    validatePlaceholderValue "0.2" discountRatePh = .ok "20.0%" ∧
    validatePlaceholderValue "20%" discountRatePh = .ok "20.0%" ∧
    (∀ (value r : String), percentageBranch value = .ok r → ∃ core : String, r = core ++ "%") ∧
    (∀ (value : String) (p : Dec),
      parseFloat? (pyStrip (dropChars (fun c => c == '%') value)) = some p →
      dLt ⟨1, 0⟩ p = true → dLe p ⟨100, 0⟩ = true →
      percentageBranch value = .ok (pyFloatRepr p ++ "%")) ∧
    (∀ (value : String) (p : Dec),
      parseFloat? (pyStrip (dropChars (fun c => c == '%') value)) = some p →
      dLe p ⟨1, 0⟩ = true →
      percentageBranch value = .ok (pyFloatRepr (dMulInt p 100) ++ "%")) ∧
    (∀ (value : String) (ph : Placeholder),
      isEmailField ph = false → isMonthNumberField ph = false → isDateField ph = false →
      isAddressField ph = false → isAmountField ph = false → isPercentageField ph = true →
      validatePlaceholderValue value ph =
        (if pyStrip value == "" then .err requiredMsg
         else percentageBranch (pyStrip value))) := by
  exact ⟨by decide, by decide, by decide, percentageBranch_ok_suffix,
    percentageBranch_scaled, percentageBranch_fraction, dispatch_percentage⟩

/-- Witness for C6 (amended): the fraction rule applied to `0.2`, which parses
to the exact decimal 2/10 and is scaled to `20.0%`. -/
theorem claim_C6_amended_witness :
    percentageBranch "0.2" = .ok (pyFloatRepr (dMulInt ⟨2, 1⟩ 100) ++ "%") :=
  claim_C6_amended.2.2.2.2.2.1 "0.2" ⟨2, 1⟩ (by decide) (by decide)

theorem amountBranch_reject (value : String)
    (h : parseFloat? (dropChars (fun c => c == ',' || c == '$') value) = none) :
    amountBranch value = .err amountErrMsg := by
  unfold amountBranch
  dsimp only
  rw [h]

theorem amountBranch_large (value : String) (a : Dec)
    (hp : parseFloat? (dropChars (fun c => c == ',' || c == '$') value) = some a)
    (hge : dLe ⟨1000, 0⟩ a = true) :
    amountBranch value = .ok ("$" ++ fmtComma0 a) := by
  unfold amountBranch
  dsimp only
  rw [hp]
  simp only [hge, if_true]
  split <;> simp

/-- C9: amount validation strips `$` and commas, rejects input that does not
parse as a number, and formats every accepted value of at least 1000 as `$`
plus the comma-grouped rounded value; in particular `100000` → `$100,000`,
`$100,000` → `$100,000` (unchanged) and `250.5` → `$250.50`. -/
theorem claim_C9_amount_formatting :
    validatePlaceholderValue "100000" purchaseAmountPh = .ok "$100,000" ∧
    validatePlaceholderValue "$100,000" purchaseAmountPh = .ok "$100,000" ∧
    validatePlaceholderValue "250.5" purchaseAmountPh = .ok "$250.50" ∧
    (∀ value : String,
      parseFloat? (dropChars (fun c => c == ',' || c == '$') value) = none →
      amountBranch value = .err amountErrMsg) ∧
    (∀ (value : String) (a : Dec),
      parseFloat? (dropChars (fun c => c == ',' || c == '$') value) = some a →
      dLe ⟨1000, 0⟩ a = true →
      amountBranch value = .ok ("$" ++ fmtComma0 a)) ∧
    (∀ (value : String) (ph : Placeholder),
      isEmailField ph = false → isMonthNumberField ph = false → isDateField ph = false →
      isAddressField ph = false → isAmountField ph = true →
      validatePlaceholderValue value ph =
        (if pyStrip value == "" then .err requiredMsg
         else amountBranch (pyStrip value))) := by
  exact ⟨by decide, by decide, by decide, amountBranch_reject, amountBranch_large,
    dispatch_amount⟩

/-- Witness for C9: the thousands-formatting rule applied to `100000`. -/
theorem claim_C9_amount_formatting_witness :
    amountBranch "100000" = .ok ("$" ++ fmtComma0 ⟨100000, 0⟩) :=
  claim_C9_amount_formatting.2.2.2.2.1 "100000" ⟨100000, 0⟩ (by decide) (by decide)

/-- C2 (failing path): in `generate_preview`'s table-cell loop a placeholder
located in paragraph 0 — not in any table cell — still gets substituted
inside a table cell whose text happens to contain its literal, and every
occurrence is replaced, with no consumed-literal tracking.  This evaluates
the embedded table-cell renderer at the failing input. -/
theorem claim_C2_preview_table_crosses_locations :
    crossLocPh.location = Loc.para 0 ∧
    previewCellText [crossLocPh] [("ph_x1", "$100,000")]
        "Pay $[___] now and $[___] later" =
      "Pay <span class=\"placeholder-filled\">$100,000</span> now and <span class=\"placeholder-filled\">$100,000</span> later" ∧
    previewCellText [crossLocPh] [("ph_x1", "$100,000")]
        "Pay $[___] now and $[___] later" ≠
      "Pay $[___] now and $[___] later" := by
  refine ⟨by decide, by decide, by decide⟩

/-- C4 (failing behaviour): `edit_field`'s auto-fill loop has no
not-yet-filled check, so editing `companyPhA` overwrites the value the user
had already stored for the same-named `companyPhB` — contrary to the claim
(and to the chat and fill endpoints, which skip filled siblings). -/
theorem claim_C4_edit_overwrites_filled_sibling :
    fvGet? editSessC4.filledValues "idB" = some "Old Corp" ∧
    ∃ (sess2 : Session) (resp : EditResponse),
      editField editSessC4 "idA" "New Corp" = .ok sess2 resp ∧
      fvGet? sess2.filledValues "idB" = some "New Corp" ∧
      fvGet? sess2.filledValues "idA" = some "New Corp" := by
  refine ⟨by decide, _, _, rfl, by decide, by decide⟩

theorem progressPercentage_two_one : progressPercentage 2 1 = 200 := by
  unfold progressPercentage pyRound1 rheQ
  norm_num

/-- C10: editing the single placeholder through its legacy key stores the
accepted value under both the id and the key, so the one filled placeholder
contributes two map entries; the response then reports `filled_count = 2`
against `total_count = 1` and a progress percentage of 200, exceeding 100. -/
theorem claim_C10_progress_overflow :
    ∃ (sess2 : Session) (resp : EditResponse),
      editField c10Sess "kA" "Acme Inc" = .ok sess2 resp ∧
      fvGet? sess2.filledValues "idA" = some "Acme Inc" ∧
      fvGet? sess2.filledValues "kA" = some "Acme Inc" ∧
      resp.filledCount = 2 ∧
      resp.totalCount = 1 ∧
      resp.totalCount < resp.filledCount ∧
      resp.progressPct = 200 ∧
      (100 : ℚ) < resp.progressPct := by
  refine ⟨_, _, rfl, by decide, by decide, by decide, by decide, by decide, ?_, ?_⟩
  · show progressPercentage 2 1 = 200
    exact progressPercentage_two_one
  · show (100 : ℚ) < progressPercentage 2 1
    rw [progressPercentage_two_one]
    norm_num

end Lexsy
